import Mathlib

/-!
Verification of the KISS-ICP frame-registration orchestrator
(`src/python/kiss_icp/kiss_icp.py`, class `KissICP`) against its
specification.

Shallow embedding choices:
* Poses are 4×4 matrices over `ℚ` (`np.eye(4)` is `1`); point clouds are
  lists of `Fin 3 → ℚ`.
* The external collaborators (motion compensator, preprocessor, threshold
  estimator, registration solver) are parameters (`Collab`): the spec fixes
  only their interfaces.  The two stateful externals — the adaptive-threshold
  model and the voxel hash map — are modelled by their call logs
  (`threshold_updates`, `map_updates`), which is exactly the observable the
  spec's sequencing properties quantify over; the estimator reads its own log,
  the solver reads the map log.
* `np.linalg.inv` is `minv` (adjugate divided by determinant; agrees with
  `Matrix.inv`, hence with the true inverse on invertible matrices).
* `np.linalg.norm(v) > c` for a 3-vector `v` is encoded without square roots
  as `c < 0 ∨ c² < ‖v‖²`, which is equivalent (lemma `sqrt_gt_iff_of_nonneg`
  proves the equivalence against `Real.sqrt`); this keeps the state
  executable over `ℚ`.
* Python's `round` (ties to even) is `pyRound`; `np.linalg.matrix_power`
  with an integer exponent is `matrix_power`.
* `register_frame` raises `RuntimeError` on `frame_delta <= 0`; the
  embedding returns `Except.error RegError.invalidArgument` and, failure
  producing no successor state, a failing call by construction mutates
  nothing.
-/

abbrev M4 := Matrix (Fin 4) (Fin 4) ℚ

abbrev V3 := Fin 3 → ℚ

abbrev Cloud := List V3

/-- Embedding of `np.linalg.inv` on a 4×4 rational matrix: `det⁻¹ • adjugate`.  On an
invertible matrix this is the unique inverse; on a singular one it is the
zero matrix (numpy would raise there). -/
def minv (A : M4) : M4 := A.det⁻¹ • A.adjugate

/-- Python's built-in `round` on an exact rational: nearest integer, ties to
even (banker's rounding, the IEEE-754 convention `round` follows). -/
def pyRound (q : ℚ) : ℤ :=
  let f := Int.floor q
  let r := q - f
  if r < 1/2 then f
  else if 1/2 < r then f + 1
  else if Even f then f else f + 1

/-- Embedding of `np.linalg.matrix_power A n` for an integer exponent: `A^n` for `n ≥ 0`,
`(A⁻¹)^(-n)` for `n < 0`. -/
def matrix_power (A : M4) (n : ℤ) : M4 :=
  if 0 ≤ n then A ^ n.toNat else (minv A) ^ (-n).toNat

/-- The voxel cell of a point at voxel size `s`: coordinate-wise
`⌊ p i / s ⌋`. -/
def voxel_key (s : ℚ) (p : V3) : Fin 3 → ℤ := fun i => Int.floor (p i / s)

/-- Worker for `voxel_down_sample`: walk the cloud keeping the first point
seen in each voxel cell (`seen` is the set of already-occupied cells). -/
def vds_go (s : ℚ) : List (Fin 3 → ℤ) → Cloud → Cloud
  | _, [] => []
  | seen, p :: ps =>
    if voxel_key s p ∈ seen then vds_go s seen ps
    else p :: vds_go s (voxel_key s p :: seen) ps

/-- Modelled from the spec: `voxel_down_sample` lives in
`kiss_icp.voxelization`, which is not part of the provided source; per the
spec's collaborator contract `downsample(frame, voxelSize) → frame` and the
voxel-grid description, it keeps one representative input point per occupied
voxel cell (the first encountered). -/
def voxel_down_sample (cloud : Cloud) (voxel_size : ℚ) : Cloud :=
  vds_go voxel_size [] cloud

/-- The configuration options the core reads: `config.mapping.voxel_size`,
`config.adaptive_threshold.initial_threshold`, and
`config.adaptive_threshold.min_motion_th`. -/
structure Config where
  voxel_size : ℚ
  initial_threshold : ℚ
  min_motion_th : ℚ

/-- The orchestrator state owned by a `KissICP` object: the pose log, the
call log of `adaptive_threshold.update_model_deviation` (the threshold
model's accumulated state), the call log of `local_map.update` (the voxel
map's accumulated state), and `prev_frame_delta`. -/
structure KissState where
  poses : List M4
  threshold_updates : List M4
  map_updates : List (Cloud × M4)
  prev_frame_delta : ℚ

/-- State after `KissICP.__init__`: empty pose log, fresh collaborator state,
`prev_frame_delta = 1`. -/
def init_state : KissState :=
  { poses := [], threshold_updates := [], map_updates := [], prev_frame_delta := 1 }

/-- The external collaborators, specified only through their interfaces:
`deskew_scan`, the preprocessor, `adaptive_threshold.get_threshold` (a
function of the model state, i.e. of the update log), and the registration
solver `register_frame(points, voxel_map, initial_guess, max_correspondance_distance, kernel)`. -/
structure Collab where
  deskew : Cloud → List M4 → List ℚ → ℚ → Cloud
  preprocess : Cloud → Cloud
  getThreshold : List M4 → ℚ
  solve : Cloud → List (Cloud × M4) → M4 → ℚ → ℚ → M4

/-- The error raised by `register_frame` on a non-positive `frame_delta`
(`RuntimeError` in the source; `InvalidArgument` in the spec). -/
inductive RegError where
  | invalidArgument
deriving DecidableEq

/-- Squared euclidean norm of the translation column (entries `(0,3)`,
`(1,3)`, `(2,3)`, numpy's `[:3, -1]`) of a 4×4 transform. -/
def sqnorm3 (A : M4) : ℚ := (A 0 3)^2 + (A 1 3)^2 + (A 2 3)^2

/-- Embeds `KissICP.has_moved`: `False` on an empty pose log, else compare the
translation norm of `inv(poses[0]) @ poses[-1]` against
`5 * min_motion_th`.  The comparison `‖t‖ > c` is encoded square-root-free
as `c < 0 ∨ c² < ‖t‖²`. -/
def has_moved (cfg : Config) (poses : List M4) : Bool :=
  if poses.length < 1 then false
  else
    decide (5 * cfg.min_motion_th < 0) ||
      decide ((5 * cfg.min_motion_th)^2 <
        sqnorm3 (minv (poses.headD 1) * poses.getLastD 1))

/-- Embeds `KissICP.get_adaptive_threshold`: the configured initial threshold until
the trajectory has moved, the adaptive model's estimate afterwards. -/
def get_adaptive_threshold (C : Collab) (cfg : Config) (st : KissState) : ℚ :=
  if ¬ has_moved cfg st.poses then cfg.initial_threshold
  else C.getThreshold st.threshold_updates

/-- The constant-velocity motion `inv(poses[-2]) @ poses[-1]` (defined for a
log of length ≥ 2; the default `1` is never read there). -/
def last_relative_motion (poses : List M4) : M4 :=
  minv (poses.getD (poses.length - 2) 1) * poses.getLastD 1

/-- Embeds `KissICP.get_prediction_model`: identity for fewer than two logged
poses; else the last relative motion, raised to `int(round(ratio))` when
`frame_delta_ratio > 0.5`. -/
def get_prediction_model (poses : List M4) (frame_delta_ratio : ℚ) : M4 :=
  if poses.length < 2 then 1
  else
    if frame_delta_ratio ≤ 1/2 then last_relative_motion poses
    else matrix_power (last_relative_motion poses) (pyRound frame_delta_ratio)

/-- Embeds `KissICP.voxelize`: downsample the input frame at `0.5 * voxel_size`
(the fine, map-update cloud), then downsample that again at
`1.5 * voxel_size` (the coarser registration cloud `source`); returns
`(source, frame_downsample)`. -/
def voxelize (cfg : Config) (iframe : Cloud) : Cloud × Cloud :=
  let frame_downsample := voxel_down_sample iframe (cfg.voxel_size * (1/2))
  let source := voxel_down_sample frame_downsample (cfg.voxel_size * (3/2))
  (source, frame_downsample)

/-- Embeds `KissICP.register_frame`: the frame-registration pipeline.  Returns the
successor state together with the returned pair
`(preprocessed frame, source)`, or `RegError.invalidArgument` when
`frame_delta ≤ 0`. -/
def register_frame (C : Collab) (cfg : Config) (st : KissState)
    (frame : Cloud) (timestamps : List ℚ) (frame_delta : ℚ) :
    Except RegError (KissState × Cloud × Cloud) :=
  if frame_delta ≤ 0 then Except.error RegError.invalidArgument
  else
    let frame_delta_ratio := frame_delta / st.prev_frame_delta
    let frame1 := C.deskew frame st.poses timestamps frame_delta_ratio
    let frame2 := C.preprocess frame1
    let sf := voxelize cfg frame2
    let source := sf.1
    let frame_downsample := sf.2
    let sigma := get_adaptive_threshold C cfg st
    let prediction := get_prediction_model st.poses frame_delta_ratio
    let last_pose := st.poses.getLastD 1
    let initial_guess := last_pose * prediction
    let new_pose := C.solve source st.map_updates initial_guess (3 * sigma) (sigma / 3)
    Except.ok
      ({ poses := st.poses ++ [new_pose],
         threshold_updates := st.threshold_updates ++ [minv initial_guess * new_pose],
         map_updates := st.map_updates ++ [(frame_downsample, new_pose)],
         prev_frame_delta := frame_delta },
       frame2, source)

/-- Observation: the frame-delta ratio a call computes. -/
def ratio_of (st : KissState) (frame_delta : ℚ) : ℚ :=
  frame_delta / st.prev_frame_delta

/-- Observation: the deskewed, preprocessed frame of a call. -/
def frame2_of (C : Collab) (st : KissState) (frame : Cloud)
    (timestamps : List ℚ) (frame_delta : ℚ) : Cloud :=
  C.preprocess (C.deskew frame st.poses timestamps (ratio_of st frame_delta))

/-- Observation: the fine (map-update) downsampled cloud of a call. -/
def fine_of (C : Collab) (cfg : Config) (st : KissState) (frame : Cloud)
    (timestamps : List ℚ) (frame_delta : ℚ) : Cloud :=
  (voxelize cfg (frame2_of C st frame timestamps frame_delta)).2

/-- Observation: the coarser (registration) downsampled cloud of a call. -/
def source_of (C : Collab) (cfg : Config) (st : KissState) (frame : Cloud)
    (timestamps : List ℚ) (frame_delta : ℚ) : Cloud :=
  (voxelize cfg (frame2_of C st frame timestamps frame_delta)).1

/-- Observation: the initial guess a call hands to the solver:
`last_pose @ prediction`, where `last_pose` is the last logged pose or the
identity on an empty log. -/
def guess_of (st : KissState) (frame_delta : ℚ) : M4 :=
  st.poses.getLastD 1 * get_prediction_model st.poses (ratio_of st frame_delta)

/-- Observation: the adaptive correspondence threshold `sigma` of a call. -/
def sigma_of (C : Collab) (cfg : Config) (st : KissState) : ℚ :=
  get_adaptive_threshold C cfg st

/-- Observation: the pose the registration solver answers with. -/
def newpose_of (C : Collab) (cfg : Config) (st : KissState) (frame : Cloud)
    (timestamps : List ℚ) (frame_delta : ℚ) : M4 :=
  C.solve (source_of C cfg st frame timestamps frame_delta) st.map_updates
    (guess_of st frame_delta)
    (3 * sigma_of C cfg st) (sigma_of C cfg st / 3)

/-! ### Helper lemmas (shared) -/

theorem minv_eq_inv (A : M4) : minv A = A⁻¹ := by
  rw [Matrix.inv_def, Ring.inverse_eq_inv']
  rfl

theorem minv_one : minv 1 = 1 := by
  rw [minv_eq_inv, inv_one]

theorem minv_mul_self (A : M4) (h : IsUnit A.det) : minv A * A = 1 := by
  rw [minv_eq_inv]
  exact Matrix.nonsing_inv_mul A h

/-- Even without invertibility, `minv A * A` is a scalar multiple of the
identity, so its off-diagonal entries vanish. -/
theorem minv_mul_smul (A : M4) : minv A * A = (A.det⁻¹ * A.det) • 1 := by
  rw [minv, Matrix.smul_mul, Matrix.adjugate_mul, smul_smul]

/-- Justification of the square-root-free encoding used by `has_moved`:
for `0 ≤ q`, `c < √q ↔ c < 0 ∨ c² < q`. -/
theorem sqrt_gt_iff_of_nonneg (c q : ℚ) :
    (c : ℝ) < Real.sqrt (q : ℝ) ↔ (c < 0 ∨ c^2 < q) := by
  rcases le_or_lt 0 c with hc | hc
  · rw [Real.lt_sqrt (by exact_mod_cast hc)]
    constructor
    · intro h; right; exact_mod_cast h
    · rintro (h | h)
      · exact absurd hc (not_le.mpr h)
      · exact_mod_cast h
  · constructor
    · intro _; left; exact hc
    · intro _
      calc (c : ℝ) < 0 := by exact_mod_cast hc
        _ ≤ Real.sqrt q := Real.sqrt_nonneg _

theorem sqnorm3_nonneg (A : M4) : 0 ≤ sqnorm3 A := by
  unfold sqnorm3
  positivity

/-- What one successful `register_frame` call produces, phrased through the
observation functions. -/
theorem register_frame_ok (C : Collab) (cfg : Config) (st : KissState)
    (frame : Cloud) (ts : List ℚ) (d : ℚ) (h : ¬ d ≤ 0) :
    register_frame C cfg st frame ts d =
      Except.ok
        ({ poses := st.poses ++ [newpose_of C cfg st frame ts d],
           threshold_updates :=
             st.threshold_updates ++ [minv (guess_of st d) * newpose_of C cfg st frame ts d],
           map_updates :=
             st.map_updates ++ [(fine_of C cfg st frame ts d, newpose_of C cfg st frame ts d)],
           prev_frame_delta := d },
         frame2_of C st frame ts d, source_of C cfg st frame ts d) := by
  simp only [register_frame, if_neg h]
  rfl

/-- Every point kept by the downsampling worker comes from its input cloud. -/
theorem vds_go_subset (s : ℚ) :
    ∀ (seen : List (Fin 3 → ℤ)) (c : Cloud) (p : V3), p ∈ vds_go s seen c → p ∈ c := by
  intro seen c
  induction c generalizing seen with
  | nil => intro p hp; simp [vds_go] at hp
  | cons q qs ih =>
    intro p hp
    by_cases hk : voxel_key s q ∈ seen
    · simp only [vds_go, if_pos hk] at hp
      exact List.mem_cons_of_mem q (ih seen p hp)
    · simp only [vds_go, if_neg hk, List.mem_cons] at hp
      rcases hp with hp | hp
      · exact hp ▸ List.mem_cons_self q qs
      · exact List.mem_cons_of_mem q (ih _ p hp)

/-- Every point of a downsampled cloud is a point of the original cloud. -/
theorem voxel_down_sample_subset (c : Cloud) (s : ℚ) (p : V3)
    (hp : p ∈ voxel_down_sample c s) : p ∈ c :=
  vds_go_subset s [] c p hp

/-! ### Shared concrete fixtures for witnesses and counterexamples -/

/-- A trivial collaborator set: identity deskew/preprocess, constant
threshold estimate, solver answering with its initial guess. -/
def triv_collab : Collab :=
  { deskew := fun f _ _ _ => f, preprocess := id,
    getThreshold := fun _ => 1,
    solve := fun _ _ g _ _ => g }

/-- A concrete configuration: voxel size 2, initial threshold 2, minimum
motion threshold 1. -/
def cfg0 : Config := { voxel_size := 2, initial_threshold := 2, min_motion_th := 1 }

/-- The origin point. -/
def p0x : V3 := fun _ => 0

/-- The point `(3/2, 3/2, 3/2)`: shares the coarse (size-3) voxel of the
origin but not its fine (size-1) voxel. -/
def p1x : V3 := fun _ => 3/2

/-- Translation by one along every axis (a rigid transform distinct from
the identity). -/
def TBx : M4 :=
  Matrix.of ![![1,0,0,1], ![0,1,0,1], ![0,0,1,1], ![0,0,0,1]]

/-! ### Claim theorems -/

/-- C1: for every call `register_frame(frame, timestamps, frame_delta)`
with `frame_delta ≤ 0`, the call fails with the `InvalidArgument` error;
the embedding returns no successor state on failure, so the pose log, the
threshold model, the voxel map and `prev_frame_delta` are left untouched —
no state is mutated before the failure. -/
theorem register_frame_rejects_nonpositive_delta (C : Collab) (cfg : Config)
    (st : KissState) (frame : Cloud) (ts : List ℚ) (d : ℚ) (h : d ≤ 0) :
    register_frame C cfg st frame ts d = Except.error RegError.invalidArgument := by
  simp [register_frame, if_pos h]

theorem register_frame_rejects_nonpositive_delta_witness :
    ((0 : ℚ) ≤ 0) ∧
      register_frame triv_collab cfg0 init_state [] [] 0 =
        Except.error RegError.invalidArgument :=
  ⟨le_refl 0,
   register_frame_rejects_nonpositive_delta triv_collab cfg0 init_state [] [] 0 (le_refl 0)⟩

/-- C2: a successful `register_frame` call whose solver answers `P`
(`P = newpose_of …`, the solver applied to the call's arguments) appends
exactly `P` to the pose log (one new entry, last entry `P`), sends the
threshold model exactly one update with value `inverse(initialGuess) ∘ P`,
and sends the voxel map exactly one update with the fine (map-update)
downsampled cloud and pose `P`. -/
theorem register_frame_success_effects (C : Collab) (cfg : Config)
    (st : KissState) (frame : Cloud) (ts : List ℚ) (d : ℚ) (h : 0 < d) :
    ∃ st2 f2 src, register_frame C cfg st frame ts d = Except.ok (st2, f2, src) ∧
      st2.poses.getLast? = some (newpose_of C cfg st frame ts d) ∧
      st2.poses.length = st.poses.length + 1 ∧
      st2.threshold_updates =
        st.threshold_updates ++ [minv (guess_of st d) * newpose_of C cfg st frame ts d] ∧
      st2.map_updates =
        st.map_updates ++ [(fine_of C cfg st frame ts d, newpose_of C cfg st frame ts d)] := by
  refine ⟨_, _, _, register_frame_ok C cfg st frame ts d (not_le.mpr h), ?_, ?_, rfl, rfl⟩
  · simp
  · simp

theorem register_frame_success_effects_witness :
    (0 : ℚ) < 1 ∧
      ∃ st2 f2 src, register_frame triv_collab cfg0 init_state [] [] 1 =
          Except.ok (st2, f2, src) ∧
        st2.poses.getLast? = some (newpose_of triv_collab cfg0 init_state [] [] 1) ∧
        st2.poses.length = init_state.poses.length + 1 ∧
        st2.threshold_updates =
          init_state.threshold_updates ++
            [minv (guess_of init_state 1) * newpose_of triv_collab cfg0 init_state [] [] 1] ∧
        st2.map_updates =
          init_state.map_updates ++
            [(fine_of triv_collab cfg0 init_state [] [] 1,
              newpose_of triv_collab cfg0 init_state [] [] 1)] :=
  ⟨by norm_num,
   register_frame_success_effects triv_collab cfg0 init_state [] [] 1 (by norm_num)⟩

/-- C3: `get_prediction_model` returns the identity on a pose log of fewer
than two entries; otherwise, with `model = inverse(poses[-2]) ∘ poses[-1]`,
it returns `model` unchanged for `frame_delta_ratio ≤ 0.5` and
`model ^ round(frame_delta_ratio)` for `frame_delta_ratio > 0.5`; in
particular `poses = [I, T]` gives `T²` at ratio `2` and `T` at ratio
`0.4`. -/
theorem prediction_model_spec :
    (∀ (poses : List M4) (r : ℚ), poses.length < 2 → get_prediction_model poses r = 1) ∧
    (∀ (poses : List M4) (r : ℚ), 2 ≤ poses.length → r ≤ 1/2 →
      get_prediction_model poses r = last_relative_motion poses) ∧
    (∀ (poses : List M4) (r : ℚ), 2 ≤ poses.length → 1/2 < r →
      get_prediction_model poses r =
        matrix_power (last_relative_motion poses) (pyRound r)) ∧
    (∀ T : M4, get_prediction_model [1, T] 2 = T * T) ∧
    (∀ T : M4, get_prediction_model [1, T] (2/5) = T) := by
  have hlrm : ∀ T : M4, last_relative_motion [1, T] = T := by
    intro T
    simp [last_relative_motion, minv_one]
  refine ⟨?_, ?_, ?_, ?_, ?_⟩
  · intro poses r h
    simp [get_prediction_model, if_pos h]
  · intro poses r h hr
    rw [get_prediction_model, if_neg (not_lt.mpr h), if_pos hr]
  · intro poses r h hr
    rw [get_prediction_model, if_neg (not_lt.mpr h), if_neg (not_le.mpr hr)]
  · intro T
    rw [get_prediction_model, if_neg (by norm_num), if_neg (by norm_num), hlrm]
    have h2 : pyRound 2 = 2 := by norm_num [pyRound]
    rw [h2, matrix_power, if_pos (by norm_num)]
    show T ^ 2 = T * T
    rw [pow_two]
  · intro T
    rw [get_prediction_model, if_neg (by norm_num), if_pos (by norm_num), hlrm]

theorem prediction_model_spec_witness :
    get_prediction_model [] 1 = 1 ∧
      get_prediction_model [1, TBx] 2 = TBx * TBx ∧
      get_prediction_model [1, TBx] (2/5) = TBx :=
  ⟨prediction_model_spec.1 [] 1 (by simp),
   prediction_model_spec.2.2.2.1 TBx,
   prediction_model_spec.2.2.2.2 TBx⟩

/-- C5: `has_moved` is `false` on an empty pose log; on a non-empty log it
is `true` iff the translation norm of `inverse(poses[0]) ∘ poses[-1]`
strictly exceeds `5 × min_motion_th` — a distance exactly at the boundary
counts as not moved (strict inequality). -/
theorem has_moved_iff_sqrt (cfg : Config) (poses : List M4) :
    (poses = [] → has_moved cfg poses = false) ∧
    (poses ≠ [] →
      (has_moved cfg poses = true ↔
        ((5 * cfg.min_motion_th : ℚ) : ℝ) <
          Real.sqrt ((sqnorm3 (minv (poses.headD 1) * poses.getLastD 1) : ℚ) : ℝ))) := by
  constructor
  · intro h
    subst h
    simp [has_moved]
  · intro h
    rw [sqrt_gt_iff_of_nonneg _ _]
    rw [has_moved, if_neg (by simpa [Nat.lt_one_iff] using h)]
    simp [Bool.or_eq_true, decide_eq_true_iff]

theorem has_moved_iff_sqrt_witness :
    ¬ (([TBx] : List M4) = []) ∧
      (has_moved cfg0 [TBx] = true ↔
        ((5 * cfg0.min_motion_th : ℚ) : ℝ) <
          Real.sqrt ((sqnorm3 (minv (([TBx] : List M4).headD 1) *
            ([TBx] : List M4).getLastD 1) : ℚ) : ℝ)) :=
  ⟨by simp, (has_moved_iff_sqrt cfg0 [TBx]).2 (by simp)⟩

/-- C9: with exactly one (invertible) pose in the log and a non-negative
`min_motion_th`, the first and last poses coincide, so the relative
translation norm is `0`, `has_moved` is `false`, and the next frame is
registered with the configured initial threshold, not the adaptive
model's estimate. -/
theorem single_pose_uses_initial_threshold (C : Collab) (cfg : Config)
    (st : KissState) (P : M4) (hP : IsUnit P.det)
    (hm : 0 ≤ cfg.min_motion_th) (hp : st.poses = [P]) :
    has_moved cfg st.poses = false ∧
    get_adaptive_threshold C cfg st = cfg.initial_threshold := by
  have h5 : 0 ≤ 5 * cfg.min_motion_th := by linarith
  have hmv : has_moved cfg st.poses = false := by
    rw [hp, has_moved, if_neg (by norm_num)]
    have hg : ([P] : List M4).getLastD 1 = P := by simp
    rw [List.headD_cons, hg, minv_mul_self P hP]
    have hz : sqnorm3 (1 : M4) = 0 := by
      rw [sqnorm3, Matrix.one_apply_ne (by decide : (0 : Fin 4) ≠ 3),
        Matrix.one_apply_ne (by decide : (1 : Fin 4) ≠ 3),
        Matrix.one_apply_ne (by decide : (2 : Fin 4) ≠ 3)]
      norm_num
    rw [hz]
    simp only [Bool.or_eq_false_iff, decide_eq_false_iff_not, not_lt]
    exact ⟨h5, sq_nonneg _⟩
  exact ⟨hmv, by simp [get_adaptive_threshold, hmv]⟩

theorem single_pose_uses_initial_threshold_witness :
    has_moved cfg0 [(1 : M4)] = false ∧
      get_adaptive_threshold triv_collab cfg0
        { poses := [(1 : M4)], threshold_updates := [], map_updates := [],
          prev_frame_delta := 1 } = cfg0.initial_threshold :=
  single_pose_uses_initial_threshold triv_collab cfg0
    { poses := [(1 : M4)], threshold_updates := [], map_updates := [],
      prev_frame_delta := 1 } 1
    (by rw [Matrix.det_one]; exact isUnit_one) (by norm_num [cfg0]) rfl

/-- C6: in every successful call, `sigma` is the configured initial
threshold when `has_moved` is `false` and the adaptive model's estimate
when it is `true`, and the registration solver receives exactly the
maximum correspondence distance `3 · sigma` and the robust-kernel scale
`sigma / 3` (pinned by quantifying over every solver). -/
theorem sigma_gating_and_solver_scales (C : Collab) (cfg : Config)
    (st : KissState) (frame : Cloud) (ts : List ℚ) (d : ℚ) (h : 0 < d) :
    (has_moved cfg st.poses = false → sigma_of C cfg st = cfg.initial_threshold) ∧
    (has_moved cfg st.poses = true → sigma_of C cfg st = C.getThreshold st.threshold_updates) ∧
    ∃ st2 f2 src, register_frame C cfg st frame ts d = Except.ok (st2, f2, src) ∧
      st2.poses.getLast? =
        some (C.solve (source_of C cfg st frame ts d) st.map_updates (guess_of st d)
          (3 * sigma_of C cfg st) (sigma_of C cfg st / 3)) := by
  refine ⟨?_, ?_, _, _, _, register_frame_ok C cfg st frame ts d (not_le.mpr h), ?_⟩
  · intro hmv
    simp [sigma_of, get_adaptive_threshold, hmv]
  · intro hmv
    simp [sigma_of, get_adaptive_threshold, hmv]
  · simp [newpose_of]

theorem sigma_gating_and_solver_scales_witness :
    (0 : ℚ) < 1 ∧
      ((has_moved cfg0 init_state.poses = false →
          sigma_of triv_collab cfg0 init_state = cfg0.initial_threshold) ∧
        (has_moved cfg0 init_state.poses = true →
          sigma_of triv_collab cfg0 init_state =
            triv_collab.getThreshold init_state.threshold_updates) ∧
        ∃ st2 f2 src, register_frame triv_collab cfg0 init_state [] [] 1 =
            Except.ok (st2, f2, src) ∧
          st2.poses.getLast? =
            some (triv_collab.solve (source_of triv_collab cfg0 init_state [] [] 1)
              init_state.map_updates (guess_of init_state 1)
              (3 * sigma_of triv_collab cfg0 init_state)
              (sigma_of triv_collab cfg0 init_state / 3))) :=
  ⟨by norm_num,
   sigma_gating_and_solver_scales triv_collab cfg0 init_state [] [] 1 (by norm_num)⟩

/-- C8: `frame_delta_ratio = frame_delta / prev_frame_delta` with
`prev_frame_delta` initialized to `1` at construction and set to
`frame_delta` only at the end of a successful call, and the initial guess
handed to the solver is `lastPose ∘ prediction`, with `lastPose` the
identity on an empty pose log. -/
theorem ratio_and_initial_guess (C : Collab) (cfg : Config) (st : KissState)
    (frame : Cloud) (ts : List ℚ) (d : ℚ) (h : 0 < d) :
    init_state.prev_frame_delta = 1 ∧
    ratio_of st d = d / st.prev_frame_delta ∧
    guess_of st d = st.poses.getLastD 1 * get_prediction_model st.poses (d / st.prev_frame_delta) ∧
    (st.poses = [] → st.poses.getLastD 1 = 1) ∧
    ∃ st2 f2 src, register_frame C cfg st frame ts d = Except.ok (st2, f2, src) ∧
      st2.prev_frame_delta = d ∧
      st2.poses.getLast? =
        some (C.solve (source_of C cfg st frame ts d) st.map_updates (guess_of st d)
          (3 * sigma_of C cfg st) (sigma_of C cfg st / 3)) := by
  refine ⟨rfl, rfl, rfl, ?_, _, _, _,
    register_frame_ok C cfg st frame ts d (not_le.mpr h), rfl, ?_⟩
  · intro hp
    rw [hp]
    rfl
  · simp [newpose_of]

theorem ratio_and_initial_guess_witness :
    (0 : ℚ) < 1 ∧
      (init_state.prev_frame_delta = 1 ∧
        ratio_of init_state 1 = 1 / init_state.prev_frame_delta ∧
        guess_of init_state 1 =
          init_state.poses.getLastD 1 *
            get_prediction_model init_state.poses (1 / init_state.prev_frame_delta) ∧
        (init_state.poses = [] → init_state.poses.getLastD 1 = 1) ∧
        ∃ st2 f2 src, register_frame triv_collab cfg0 init_state [] [] 1 =
            Except.ok (st2, f2, src) ∧
          st2.prev_frame_delta = 1 ∧
          st2.poses.getLast? =
            some (triv_collab.solve (source_of triv_collab cfg0 init_state [] [] 1)
              init_state.map_updates (guess_of init_state 1)
              (3 * sigma_of triv_collab cfg0 init_state)
              (sigma_of triv_collab cfg0 init_state / 3))) :=
  ⟨by norm_num,
   ratio_and_initial_guess triv_collab cfg0 init_state [] [] 1 (by norm_num)⟩

/-- C10: the invariant `prev_frame_delta > 0` holds at construction and is
preserved by every `register_frame` call (a successful call stores the
validated positive `frame_delta`; a failing call produces no successor
state), so `frame_delta_ratio = frame_delta / prev_frame_delta` is
well-defined and strictly positive on every call with a valid
`frame_delta`. -/
theorem prev_frame_delta_positive_invariant :
    0 < init_state.prev_frame_delta ∧
    (∀ (C : Collab) (cfg : Config) (st : KissState) (frame : Cloud)
        (ts : List ℚ) (d : ℚ) (st2 : KissState) (f2 src : Cloud),
      0 < st.prev_frame_delta →
      register_frame C cfg st frame ts d = Except.ok (st2, f2, src) →
      0 < st2.prev_frame_delta) ∧
    (∀ (st : KissState) (d : ℚ), 0 < st.prev_frame_delta → 0 < d →
      0 < ratio_of st d) := by
  refine ⟨by norm_num [init_state], ?_, ?_⟩
  · intro C cfg st frame ts d st2 f2 src _ hok
    by_cases hd : d ≤ 0
    · rw [register_frame, if_pos hd] at hok
      exact absurd hok (by simp)
    · rw [register_frame_ok C cfg st frame ts d hd] at hok
      injection hok with h3
      injection h3 with h4 h5
      rw [← h4]
      exact not_le.mp hd
  · intro st d h1 h2
    exact div_pos h2 h1

theorem prev_frame_delta_positive_invariant_witness :
    0 < init_state.prev_frame_delta ∧ 0 < ratio_of init_state 1 :=
  ⟨prev_frame_delta_positive_invariant.1,
   prev_frame_delta_positive_invariant.2.2 init_state 1
     (by norm_num [init_state]) (by norm_num)⟩

/-- C7: `voxelize` produces the map-update cloud by downsampling the
filtered frame at `0.5 × voxel_size` and produces the registration cloud
by downsampling that map-update cloud again at `1.5 × voxel_size`
(cascaded, never recomputed from the original frame); consequently every
point of the registration cloud is a point of the map-update cloud and its
voxel maps into the map-update cloud's voxel set. -/
theorem voxelize_cascaded_downsample (cfg : Config) (iframe : Cloud) :
    (voxelize cfg iframe).2 = voxel_down_sample iframe (cfg.voxel_size * (1/2)) ∧
    (voxelize cfg iframe).1 =
      voxel_down_sample ((voxelize cfg iframe).2) (cfg.voxel_size * (3/2)) ∧
    ∀ p ∈ (voxelize cfg iframe).1,
      p ∈ (voxelize cfg iframe).2 ∧
      voxel_key (cfg.voxel_size * (1/2)) p ∈
        ((voxelize cfg iframe).2).map (voxel_key (cfg.voxel_size * (1/2))) := by
  refine ⟨rfl, rfl, ?_⟩
  intro p hp
  rw [show (voxelize cfg iframe).1 =
      voxel_down_sample ((voxelize cfg iframe).2) (cfg.voxel_size * (3/2)) from rfl] at hp
  exact ⟨voxel_down_sample_subset _ _ p hp,
    List.mem_map_of_mem _ (voxel_down_sample_subset _ _ p hp)⟩

theorem voxelize_cascaded_downsample_witness :
    p0x ∈ (voxelize cfg0 [p0x]).1 ∧
      (p0x ∈ (voxelize cfg0 [p0x]).2 ∧
        voxel_key (cfg0.voxel_size * (1/2)) p0x ∈
          ((voxelize cfg0 [p0x]).2).map (voxel_key (cfg0.voxel_size * (1/2)))) := by
  have hmem : p0x ∈ (voxelize cfg0 [p0x]).1 := by
    simp [voxelize, voxel_down_sample, vds_go]
  exact ⟨hmem, (voxelize_cascaded_downsample cfg0 [p0x]).2.2 p0x hmem⟩

/-- Collaborators for the concrete run refuting C4 as stated: identity
deskew/preprocess, and a solver that answers the identity pose exactly when
it is handed the fine cloud `[p0x, p1x]` and the distinct pose `TBx`
otherwise, so the appended pose reveals which cloud the solver received. -/
def col4 : Collab :=
  { deskew := fun f _ _ _ => f, preprocess := id,
    getThreshold := fun _ => 1,
    solve := fun pts _ _ _ _ => if pts = [p0x, p1x] then 1 else TBx }

/-- C4 counterexample: on the frame `[p0x, p1x]` with voxel size 2 the fine
(0.5×) cloud is `[p0x, p1x]` and the coarser (1.5×) registration cloud is
`[p0x]`, and they differ.  The run appends `TBx`, the pose the scripted
solver `col4` answers only when its `points` argument is NOT the finer
cloud — so the solver was invoked with the coarser cloud, not the finer as
the claim states; and the map-update log records the finer cloud
`[p0x, p1x]`, not the coarser `[p0x]` the claim states. -/
theorem solver_gets_fine_map_gets_coarse_refuted :
    register_frame col4 cfg0 init_state [p0x, p1x] [] 1 =
      Except.ok
        ({ poses := [TBx], threshold_updates := [TBx],
           map_updates := [([p0x, p1x], TBx)], prev_frame_delta := 1 },
         [p0x, p1x], [p0x]) ∧
    ([p0x, p1x] : Cloud) ≠ [p0x] ∧
    TBx ≠ (1 : M4) := by
  have hs1 : cfg0.voxel_size * (1/2) = 1 := by norm_num [cfg0]
  have hs3 : cfg0.voxel_size * (3/2) = 3 := by norm_num [cfg0]
  have hk1 : voxel_key 1 p1x ≠ voxel_key 1 p0x := by
    intro h
    have h0 := congrFun h 0
    norm_num [voxel_key, p0x, p1x, Int.floor_eq_iff] at h0
  have hfine : voxel_down_sample [p0x, p1x] 1 = [p0x, p1x] := by
    rw [voxel_down_sample, vds_go, if_neg (by simp), vds_go,
      if_neg (by simp [hk1]), vds_go]
  have hk3 : voxel_key 3 p1x = voxel_key 3 p0x := by
    funext i
    norm_num [voxel_key, p0x, p1x, Int.floor_eq_iff]
  have hcoarse : voxel_down_sample [p0x, p1x] 3 = [p0x] := by
    rw [voxel_down_sample, vds_go, if_neg (by simp), vds_go,
      if_pos (by simp [hk3]), vds_go]
  have hf2 : frame2_of col4 init_state [p0x, p1x] [] 1 = [p0x, p1x] := rfl
  have hfine2 : fine_of col4 cfg0 init_state [p0x, p1x] [] 1 = [p0x, p1x] := by
    rw [show fine_of col4 cfg0 init_state [p0x, p1x] [] 1 =
        voxel_down_sample (frame2_of col4 init_state [p0x, p1x] [] 1)
          (cfg0.voxel_size * (1/2)) from rfl, hf2, hs1, hfine]
  have hsrc2 : source_of col4 cfg0 init_state [p0x, p1x] [] 1 = [p0x] := by
    rw [show source_of col4 cfg0 init_state [p0x, p1x] [] 1 =
        voxel_down_sample
          (voxel_down_sample (frame2_of col4 init_state [p0x, p1x] [] 1)
            (cfg0.voxel_size * (1/2)))
          (cfg0.voxel_size * (3/2)) from rfl, hf2, hs1, hs3, hfine, hcoarse]
  have hguess : guess_of init_state 1 = 1 := by
    simp [guess_of, get_prediction_model, init_state]
  have hpose : newpose_of col4 cfg0 init_state [p0x, p1x] [] 1 = TBx := by
    rw [newpose_of, hsrc2]
    show (if ([p0x] : Cloud) = [p0x, p1x] then 1 else TBx) = TBx
    rw [if_neg (by simp)]
  refine ⟨?_, by simp, ?_⟩
  · rw [register_frame_ok col4 cfg0 init_state [p0x, p1x] [] 1 (by norm_num)]
    rw [hpose, hguess, hfine2, hsrc2, hf2, minv_one, one_mul]
    rfl
  · intro h
    have h03 := congrFun (congrFun h 0) 3
    rw [Matrix.one_apply_ne (by decide : (0 : Fin 4) ≠ 3)] at h03
    norm_num [TBx, Matrix.cons_val_three, Matrix.cons_val_zero] at h03

/-- C4 (amended): in every successful `register_frame` call, the
registration solver is invoked with the COARSER of the two downsampled
clouds (`source`, the `1.5 × voxel_size` downsample of the fine cloud),
and the voxel map is updated with the FINER of the two (the
`0.5 × voxel_size` map-update cloud) at the newly solved pose. -/
theorem solver_gets_coarse_map_gets_fine (C : Collab) (cfg : Config)
    (st : KissState) (frame : Cloud) (ts : List ℚ) (d : ℚ) (h : 0 < d) :
    fine_of C cfg st frame ts d =
      voxel_down_sample (frame2_of C st frame ts d) (cfg.voxel_size * (1/2)) ∧
    source_of C cfg st frame ts d =
      voxel_down_sample (fine_of C cfg st frame ts d) (cfg.voxel_size * (3/2)) ∧
    ∃ st2 f2 src, register_frame C cfg st frame ts d = Except.ok (st2, f2, src) ∧
      src = source_of C cfg st frame ts d ∧
      st2.poses.getLast? =
        some (C.solve (source_of C cfg st frame ts d) st.map_updates (guess_of st d)
          (3 * sigma_of C cfg st) (sigma_of C cfg st / 3)) ∧
      st2.map_updates =
        st.map_updates ++ [(fine_of C cfg st frame ts d, newpose_of C cfg st frame ts d)] := by
  refine ⟨rfl, rfl, _, _, _,
    register_frame_ok C cfg st frame ts d (not_le.mpr h), rfl, ?_, rfl⟩
  simp [newpose_of]

theorem solver_gets_coarse_map_gets_fine_witness :
    (0 : ℚ) < 1 ∧
      (fine_of triv_collab cfg0 init_state [] [] 1 =
          voxel_down_sample (frame2_of triv_collab init_state [] [] 1)
            (cfg0.voxel_size * (1/2)) ∧
        source_of triv_collab cfg0 init_state [] [] 1 =
          voxel_down_sample (fine_of triv_collab cfg0 init_state [] [] 1)
            (cfg0.voxel_size * (3/2)) ∧
        ∃ st2 f2 src, register_frame triv_collab cfg0 init_state [] [] 1 =
            Except.ok (st2, f2, src) ∧
          src = source_of triv_collab cfg0 init_state [] [] 1 ∧
          st2.poses.getLast? =
            some (triv_collab.solve (source_of triv_collab cfg0 init_state [] [] 1)
              init_state.map_updates (guess_of init_state 1)
              (3 * sigma_of triv_collab cfg0 init_state)
              (sigma_of triv_collab cfg0 init_state / 3)) ∧
          st2.map_updates =
            init_state.map_updates ++
              [(fine_of triv_collab cfg0 init_state [] [] 1,
                newpose_of triv_collab cfg0 init_state [] [] 1)]) :=
  ⟨by norm_num,
   solver_gets_coarse_map_gets_fine triv_collab cfg0 init_state [] [] 1 (by norm_num)⟩
